import Mathlib

/-!
# Verification of the knee-discovery core (`src/knee_discovery/knee_discovery.py`)

This file gives a shallow embedding of the knee-discovery module of the
repository and proves (or refutes) the frozen claims about it.

Modelling conventions:
* Python floats are modelled as exact rationals (`ℚ`); `math.sqrt` (used only by
  `calc_degradation_factor`) is modelled as `Real.sqrt` over `ℝ`.
* A pandas `DataFrame` row of the results table is a `Row`; a frame is a
  `List Row` in row order.  `np.isclose(a, b, atol=t)` keeps numpy's default
  relative tolerance `rtol = 1e-5`, i.e. it decides `|a - b| ≤ t + 1e-5 * |b|`;
  it is embedded as `npIsClose`.
* The external collaborators (the `kneed.KneeLocator` fit, `run_eval` from
  `eval.eval`, and the filesystem) are abstracted as an `Env` record of
  functions; the control flow of `run_knee_discovery` itself is translated
  statement by statement from the source.
-/

/-- One row of the persisted results table (`results_df`).  The columns used by
the knee-discovery module are the object (class) name, the original resolution,
the `degradation_factor` column (ensured at lines 362-367 of the source, equal
to the value `calculate_knee` recomputes from the resolution columns), the
`mAP` metric and the boolean `knee` flag. -/
structure Row where
  objectName : String
  origW : ℕ
  origH : ℕ
  factor : ℚ
  mAP : ℚ
  knee : Bool
deriving DecidableEq, Inhabited

/-- The results table (`results_df`), in row order. -/
abbrev Table := List Row

/-- `np.isclose a b atol` with numpy's default relative tolerance `1e-5`:
`|a - b| ≤ atol + 1e-5 * |b|`.  Note the asymmetry: the relative part scales
with the second argument. -/
def npIsClose (a b atol : ℚ) : Bool :=
  decide (|a - b| ≤ atol + |b| / 100000)

/-- Python `int(q)` on a float: truncation toward zero (floor for nonnegative
arguments). -/
def pyint (q : ℚ) : ℤ :=
  if 0 ≤ q then ⌊q⌋ else -⌊-q⌋

/-- Lines 483-488 of the source, for one dimension:
`degraded = int(new_degradation * dim)` followed by
`degraded = max(1, min(int(dim), degraded))`. -/
def degradedDim (factor : ℚ) (dim : ℕ) : ℤ :=
  max 1 (min (dim : ℤ) (pyint (factor * dim)))

/-- Line 471 of the source: the new candidate degradation factor is the
midpoint of the two selected factors. -/
def bisect (d1 d2 : ℚ) : ℚ := (d1 + d2) / 2

/-- Lines 456-468 of the source: decide which neighbour to bisect towards.
`if delta_mAP_left > delta_mAP_right and left_degradation is not None:` choose
the pair `(left, current)`; `elif right_degradation is not None:` choose
`(current, right)`; `else` no refinement is possible (`None`). -/
def decideSide (nk : ℚ) (leftD rightD : Option ℚ) (dl dr : ℚ) : Option (ℚ × ℚ) :=
  if decide (dl > dr) && leftD.isSome then
    match leftD with
    | some l => some (l, nk)
    | none => none
  else
    match rightD with
    | some r => some (nk, r)
    | none => none

/-- `calculate_knee` (lines 242-305 of the source), for one class.  The
external `kneed.KneeLocator` elbow fit is abstracted as the function `fit`,
which receives the filtered `x` (degradation factors) and `y` (mAP) lists and
returns (`sorted(kneedle.all_knees)`, `kneedle.all_knees_y`).  The function
first returns `([], [])` if every mAP is at or below the `0.01` noise floor
(line 280), then filters the samples with mAP above the floor (lines 283-286),
returns `([], [])` if nothing remains (line 288) and otherwise runs the fit on
the filtered samples only.  The `update_knee_results` side effect (line 303)
records knee events outside the results table and does not affect the returned
value, so it is not part of this embedding. -/
def calculate_knee (fit : List ℚ → List ℚ → List ℚ × List ℚ) (rows : List Row) :
    List ℚ × List ℚ :=
  let mAPs := rows.map (·.mAP)
  if mAPs.all (fun m => decide (m ≤ 1/100)) then ([], [])
  else
    let kept := rows.filter (fun r => decide (r.mAP > 1/100))
    let x := kept.map (·.factor)
    let y := kept.map (·.mAP)
    if x = [] ∨ y = [] then ([], [])
    else fit x y

/-- Lines 384-387 and 516-519 of the source: the primary knee candidate is the
first element of the sorted knee list when both output lists are nonempty. -/
def primaryKnee (p : List ℚ × List ℚ) : Option ℚ :=
  match p with
  | (a :: _, _ :: _) => some a
  | _ => none

/-- One validation image asset as seen by `degrade_images` (lines 43-123 of the
source): whether the image file and its label file exist, whether a degraded
copy already exists in the target directory, and whether opening/resizing the
image raises `OSError` (a corrupted asset). -/
structure ImgAsset where
  imageExists : Bool
  labelExists : Bool
  degradedExists : Bool
  corrupt : Bool
deriving DecidableEq, Inhabited

/-- The condition under which one iteration of the loop in `degrade_images`
takes the `except OSError` path (lines 114-117): the image and label files
exist, no degraded copy exists yet, the resolutions differ (so a real resize is
attempted instead of a plain copy) and the image is corrupt. -/
def corruptsThisPass (sameSize : Bool) (a : ImgAsset) : Bool :=
  if a.imageExists && a.labelExists then
    if !a.degradedExists then
      if sameSize then false else a.corrupt
    else false
  else false

/-- `degrade_images` (lines 43-123 of the source), modelled on its working list
of validation images.  `sameSize` is `orig_image_size == degraded_image_size`.
`num_images = len(val_image_filenames)` is computed before the loop (line 94);
the loop then increments `corrupted_counter` once per image that hits the
`OSError` path.  The side effects on the filesystem and on
`ctxt.val_image_filename_set` (discarding corrupted or missing images) do not
affect the returned pair and are not modelled. -/
def degrade_images (sameSize : Bool) (images : List ImgAsset) (counter : ℕ) :
    ℕ × ℕ :=
  (images.length,
   images.foldl (fun cc a => if corruptsThisPass sameSize a then cc + 1 else cc)
     counter)

/-- The quantity named by the specification for the first return component of
`degrade_images`: the number of images that were actually processed
successfully in this pass, i.e. whose files exist and that did not hit the
`OSError` path. -/
def specValidProcessed (sameSize : Bool) (images : List ImgAsset) : ℕ :=
  (images.filter (fun a =>
    a.imageExists && a.labelExists && !corruptsThisPass sameSize a)).length

/-- `calc_degradation_factor` (lines 219-240 of the source), over batches
(`pd.Series`) represented as lists in row order:
`degradation_factor_w = eff_res_w / orig_res_w`,
`degradation_factor_h = eff_res_h / orig_res_h`,
`degradation_factor_area = degradation_factor_w * degradation_factor_h`, and
the result applies `math.sqrt` elementwise to the area ratio. -/
noncomputable def calc_degradation_factor
    (orig_res_w orig_res_h eff_res_w eff_res_h : List ℝ) : List ℝ :=
  let degradation_factor_w := List.zipWith (· / ·) eff_res_w orig_res_w
  let degradation_factor_h := List.zipWith (· / ·) eff_res_h orig_res_h
  let degradation_factor_area :=
    List.zipWith (· * ·) degradation_factor_w degradation_factor_h
  degradation_factor_area.map Real.sqrt

/-- The external collaborators of `run_knee_discovery`, abstracted as
functions:
* `fit` — the `kneed.KneeLocator` elbow fit (see `calculate_knee`);
* `runEvalDisk` — the effect of `run_eval` (line 499) on the persisted results
  file: given the current contents of `eval_results_filename` (`none` when the
  file is absent) and the original and degraded resolutions, it returns the new
  contents (`none` when the file is still absent afterwards, e.g. the write
  failed or the file was removed).  Per the specification of the evaluator it
  appends/updates evaluation rows;
* `runEvalCache` — the effect of `run_eval` on the in-memory cached table
  (`ctxt.results_cache_df`) when one is in use. -/
structure Env where
  fit : List ℚ → List ℚ → List ℚ × List ℚ
  runEvalDisk : Option Table → ℕ × ℕ → ℤ × ℤ → Option Table
  runEvalCache : Table → ℕ × ℕ → ℤ × ℤ → Table

/-- Ascending insertion of a row by degradation factor. -/
def insertSorted (r : Row) : List Row → List Row
  | [] => [r]
  | s :: rest =>
      if decide (s.factor ≤ r.factor) then s :: insertSorted r rest
      else r :: s :: rest

/-- Lines 409-411 of the source: sort the class samples ascending by
degradation factor (`np.argsort` applied to both the factor and the mAP
arrays; a row keeps its factor and mAP together). -/
def sortByFactor (rows : List Row) : List Row :=
  rows.foldr insertSorted []

/-- The per-class state of the binary-search refinement loop of
`run_knee_discovery` (lines 390-519 of the source).  `done` records that a
`break` statement has executed. -/
structure LoopState where
  table : Table
  disk : Option Table
  classRows : List Row
  newK : Option ℚ
  oldK : Option ℚ
  newMAP : Option ℚ
  oldMAP : Option ℚ
  iteration : ℕ
  done : Bool
deriving Inhabited

/-- The `while` condition of the refinement loop (lines 397-400 of the
source): `iteration < max_iterations and new_knee_degradation_factor is not
None and (old_knee_degradation_factor is None or not
np.isclose(new_knee_degradation_factor, old_knee_degradation_factor,
atol=desired_tolerance))` with `max_iterations = 10` and `desired_tolerance =
1e-2`; `done` models a prior `break`. -/
def loopGuard (st : LoopState) : Bool :=
  !st.done && decide (st.iteration < 10) &&
    match st.newK, st.oldK with
    | none, _ => false
    | some _, none => true
    | some nk, some ok => !npIsClose nk ok (1/100)

/-- Lines 414-421 of the source:
`np.where(np.isclose(degradation_factors_sorted, nk, atol=1e-5))[0]` followed
by taking element `[0]` — the first index whose factor is `np.isclose` to the
current knee factor, or `none` when there is no such index. -/
def findCloseIdx (nk : ℚ) : List Row → Option ℕ
  | [] => none
  | r :: rest =>
      if npIsClose r.factor nk (1/100000) then some 0
      else (findCloseIdx nk rest).map (· + 1)

/-- The body of the refinement loop after the bookkeeping of lines 401-402
(`iteration += 1; old_knee_degradation_factor = new_knee_degradation_factor`),
i.e. lines 404-519 of the source, for class `c`.  `useCache` is
`ctxt.results_cache_df is not None`. -/
def loopCore (env : Env) (useCache : Bool) (c : String) (st : LoopState) :
    LoopState :=
  match st.newK with
  | none => st
  | some nk =>
    let sorted := sortByFactor st.classRows
    match findCloseIdx nk sorted with
    | none => { st with done := true }
    | some ki =>
      let newMAP := (sorted.getD ki default).mAP
      let mAPConverged :=
        match st.oldMAP with
        | some om => decide (|newMAP - om| < 1/1000)
        | none => false
      if mAPConverged then { st with newMAP := some newMAP, done := true }
      else
        let st := { st with newMAP := some newMAP, oldMAP := some newMAP }
        let leftD := if ki > 0 then some ((sorted.getD (ki - 1) default).factor)
                     else none
        let dl := if ki > 0 then |newMAP - (sorted.getD (ki - 1) default).mAP|
                  else 0
        let rightD := if ki < sorted.length - 1 then
                        some ((sorted.getD (ki + 1) default).factor)
                      else none
        let dr := if ki < sorted.length - 1 then
                    |newMAP - (sorted.getD (ki + 1) default).mAP|
                  else 0
        match decideSide nk leftD rightD dl dr with
        | none => { st with done := true }
        | some (d1, d2) =>
          let newDeg := bisect d1 d2
          if st.classRows.any (fun r => npIsClose r.factor newDeg (1/10000)) then
            { st with done := true }
          else
            let w := (st.classRows.getD 0 default).origW
            let h := (st.classRows.getD 0 default).origH
            let dw := degradedDim newDeg w
            let dh := degradedDim newDeg h
            let disk1 := env.runEvalDisk st.disk (w, h) (dw, dh)
            if useCache then
              let table1 := env.runEvalCache st.table (w, h) (dw, dh)
              let classRows1 := table1.filter (fun r => r.objectName == c)
              let newK1 := primaryKnee (calculate_knee env.fit classRows1)
              { st with table := table1, disk := disk1,
                        classRows := classRows1, newK := newK1 }
            else
              match disk1 with
              | some table1 =>
                let classRows1 := table1.filter (fun r => r.objectName == c)
                let newK1 := primaryKnee (calculate_knee env.fit classRows1)
                { st with table := table1, disk := disk1,
                          classRows := classRows1, newK := newK1 }
              | none =>
                { st with disk := none, done := true }

/-- One iteration of the body of the refinement loop (lines 401-519 of the
source): increment the iteration counter, save the previous knee factor
(lines 401-402) and run `loopCore`. -/
def loopBody (env : Env) (useCache : Bool) (c : String) (st : LoopState) :
    LoopState :=
  loopCore env useCache c { st with iteration := st.iteration + 1, oldK := st.newK }

/-- The refinement loop itself.  `fuel` is an upper bound on the remaining
iterations; since the guard already enforces `iteration < 10`, running with
fuel `10` from `iteration = 0` is exactly the `while` loop of the source (see
`refineLoop_fuel_irrelevant`). -/
def refineLoop (env : Env) (useCache : Bool) (c : String) :
    ℕ → LoopState → LoopState
  | 0, st => st
  | fuel + 1, st =>
      if loopGuard st then refineLoop env useCache c fuel (loopBody env useCache c st)
      else st

/-- The state of the whole run: the in-memory frame `results_df` and the
contents of the persisted results file (`none` when absent). -/
structure RunState where
  table : Table
  disk : Option Table
deriving Inhabited

/-- Lines 381-534 of the source for one class, binary search algorithm: seed
the loop from `calculate_knee` on the class rows, run the refinement loop, then
mark the knee (lines 522-526): clear the flag on every row of the class and set
it on the rows whose degradation factor is `np.isclose` (atol `1e-5`) to the
final knee factor, if one exists. -/
def processClassBinary (env : Env) (useCache : Bool) (st0 : RunState)
    (c : String) : RunState :=
  let classRows := st0.table.filter (fun r => r.objectName == c)
  let knee0 := primaryKnee (calculate_knee env.fit classRows)
  let init : LoopState :=
    { table := st0.table, disk := st0.disk, classRows := classRows,
      newK := knee0, oldK := none, newMAP := none, oldMAP := none,
      iteration := 0, done := false }
  let fin := refineLoop env useCache c 10 init
  let t1 := fin.table.map (fun r =>
    if r.objectName == c then { r with knee := false } else r)
  let t2 :=
    match fin.newK with
    | some k => t1.map (fun r =>
        if r.objectName == c && npIsClose r.factor k (1/100000) then
          { r with knee := true }
        else r)
    | none => t1
  { table := t2, disk := fin.disk }

/-- The primary knee candidate for class `c` computed from the class's rows of
table `T` (lines 382-387 of the source). -/
def classKnee (env : Env) (T : Table) (c : String) : Option ℚ :=
  primaryKnee (calculate_knee env.fit (T.filter (fun r => r.objectName == c)))

/-- Lines 536-549 of the source for one class, no search algorithm configured,
acting on the table: flag the rows whose degradation factor is `np.isclose`
(atol `1e-5`) to the primary knee candidate, if one exists (there is no
per-class clearing in this branch; the global reset before the loop already
cleared every flag). -/
def noneMark (env : Env) (T : Table) (c : String) : Table :=
  match classKnee env T c with
  | some k =>
      T.map (fun r =>
        if r.objectName == c && npIsClose r.factor k (1/100000) then
          { r with knee := true }
        else r)
  | none => T

/-- Lines 536-549 of the source for one class, no search algorithm configured;
only the table component of the run state is affected. -/
def processClassNone (env : Env) (st0 : RunState) (c : String) : RunState :=
  { st0 with table := noneMark env st0.table c }

/-- `pandas.Series.unique` on the `object_name` column: the distinct class
names in order of first appearance (line 373 of the source). -/
def pdUnique (l : List String) : List String :=
  l.foldl (fun acc a => if a ∈ acc then acc else acc ++ [a]) []

/-- The loaded-table stage of `run_knee_discovery` (lines 361-553 of the
source): reset the `knee` column to `False` on every row (lines 370-371 and
380), process each class in order of first appearance (line 373), and write
the final table back to the file (line 551).  `useCache` is
`ctxt.results_cache_df is not None`; `initDisk` is the contents of
`eval_results_filename` after the initial coarse sweep
(`run_eval_on_degraded_images`, line 348), whose effects are part of the
environment.  The `degradation_factor` column (lines 362-367) is the `factor`
field of each row. -/
def runLoaded (env : Env) (algBinary : Bool) (useCache : Bool) (t0 : Table)
    (initDisk : Option Table) : RunState :=
  let t1 := t0.map (fun r => { r with knee := false })
  let classNames := pdUnique (t1.map (·.objectName))
  let final := classNames.foldl
    (fun st c =>
      if algBinary then processClassBinary env useCache st c
      else processClassNone env st c)
    { table := t1, disk := initDisk }
  { table := final.table, disk := some final.table }

/-- `run_knee_discovery` proper: load the table from the cache when one
exists, else from the persisted file; a missing file without a cache prints
and returns immediately with nothing written (`none`). -/
def run_knee_discovery (env : Env) (algBinary : Bool) (initCache : Option Table)
    (initDisk : Option Table) : Option RunState :=
  match initCache with
  | some t0 => some (runLoaded env algBinary true t0 initDisk)
  | none =>
    match initDisk with
    | some t0 => some (runLoaded env algBinary false t0 initDisk)
    | none => none

/-- The table written by a run, or `[]` when the run aborted early without
writing anything. -/
def finalTable (o : Option RunState) : Table :=
  match o with
  | some st => st.table
  | none => []

/-- A table with every knee flag cleared. -/
def clearFlags (t : Table) : Table :=
  t.map (fun r => { r with knee := false })

/-- The number of rows of class `c` whose knee flag is set. -/
def countFlag (c : String) (t : Table) : ℕ :=
  (t.filter (fun r => r.objectName == c && r.knee)).length

/-! ## Supporting lemmas -/

theorem string_ab : (("A" : String) = "B") = False := by simp

theorem string_ba : (("B" : String) = "A") = False := by simp

/-- Unfolding equation of `refineLoop` at positive fuel. -/
theorem refineLoop_succ (env : Env) (u : Bool) (c : String) (fuel : ℕ)
    (st : LoopState) :
    refineLoop env u c (fuel + 1) st =
      if loopGuard st then refineLoop env u c fuel (loopBody env u c st)
      else st := rfl

/-- The loop body increments the iteration counter by exactly one (line 401 of
the source is the first statement of the body). -/
theorem loopCore_iteration (env : Env) (u : Bool) (c : String) (st : LoopState) :
    (loopCore env u c st).iteration = st.iteration := by
  simp only [loopCore]
  repeat' split
  all_goals rfl

theorem loopBody_iteration (env : Env) (u : Bool) (c : String) (st : LoopState) :
    (loopBody env u c st).iteration = st.iteration + 1 := by
  simp only [loopBody, loopCore_iteration]

/-- The loop guard requires `iteration < 10`. -/
theorem loopGuard_iteration_lt (st : LoopState) (h : loopGuard st = true) :
    st.iteration < 10 := by
  unfold loopGuard at h
  simp only [Bool.and_eq_true, decide_eq_true_eq] at h
  exact h.1.2

/-- The guard fails once the iteration cap is reached. -/
theorem loopGuard_false_of_cap (st : LoopState) (h : 10 ≤ st.iteration) :
    loopGuard st = false := by
  unfold loopGuard
  simp [Nat.not_lt.mpr h]

/-- A loop whose guard is false is finished, whatever the fuel. -/
theorem refineLoop_of_guard_false (env : Env) (u : Bool) (c : String)
    (fuel : ℕ) (st : LoopState) (h : loopGuard st = false) :
    refineLoop env u c fuel st = st := by
  cases fuel with
  | zero => rfl
  | succ n => rw [refineLoop_succ, h]; simp

/-- The final iteration count never exceeds `max st.iteration 10`. -/
theorem refineLoop_iteration_le (env : Env) (u : Bool) (c : String) :
    ∀ (fuel : ℕ) (st : LoopState),
      (refineLoop env u c fuel st).iteration ≤ max st.iteration 10 := by
  intro fuel
  induction fuel with
  | zero => intro st; exact le_max_left _ _
  | succ n ih =>
      intro st
      rw [refineLoop_succ]
      by_cases h : loopGuard st = true
      · rw [h]
        simp only [if_true]
        refine le_trans (ih (loopBody env u c st)) ?_
        have hlt : st.iteration < 10 := loopGuard_iteration_lt st h
        rw [loopBody_iteration]
        have : max (st.iteration + 1) 10 = 10 := max_eq_right (by omega)
        rw [this]
        exact le_max_right _ _
      · rw [Bool.not_eq_true] at h
        rw [h]
        simp only [Bool.false_eq_true, if_false]
        exact le_max_left _ _

/-- Fuel irrelevance: any fuel at least `10 - st.iteration` computes the same
final state, so running with fuel `10` from iteration `0` is exactly the
unbounded `while` loop of the source. -/
theorem refineLoop_fuel_irrelevant (env : Env) (u : Bool) (c : String) :
    ∀ (f1 f2 : ℕ) (st : LoopState),
      10 ≤ st.iteration + f1 → 10 ≤ st.iteration + f2 →
      refineLoop env u c f1 st = refineLoop env u c f2 st := by
  intro f1
  induction f1 with
  | zero =>
      intro f2 st h1 _
      have hg : loopGuard st = false := loopGuard_false_of_cap st (by omega)
      rw [refineLoop_of_guard_false env u c 0 st hg,
        refineLoop_of_guard_false env u c f2 st hg]
  | succ n ih =>
      intro f2 st h1 h2
      by_cases hg : loopGuard st = true
      · cases f2 with
        | zero =>
            have : loopGuard st = false :=
              loopGuard_false_of_cap st (by omega)
            rw [this] at hg; exact absurd hg (by simp)
        | succ m =>
            rw [refineLoop_succ, refineLoop_succ, hg]
            simp only [if_true]
            refine ih m (loopBody env u c st) ?_ ?_ <;>
              rw [loopBody_iteration] <;> omega
      · rw [Bool.not_eq_true] at hg
        rw [refineLoop_of_guard_false env u c _ st hg,
          refineLoop_of_guard_false env u c f2 st hg]

/-! ## Claim C1 -/

/-- A trivial environment: the elbow fit finds no knee and evaluation leaves
both stores unchanged. -/
def envTrivial : Env :=
  { fit := fun _ _ => ([], []),
    runEvalDisk := fun d _ _ => d,
    runEvalCache := fun t _ _ => t }

/-- The loop state at entry of the refinement loop for an empty curve. -/
def loopStateNil : LoopState :=
  { table := [], disk := none, classRows := [], newK := none, oldK := none,
    newMAP := none, oldMAP := none, iteration := 0, done := false }

/-- C1: for every class and every input curve (any environment, cache mode and
starting state of the per-class refinement), the binary-search refinement loop
of `run_knee_discovery` terminates — adding fuel beyond the cap never changes
the result, so the fuel-indexed `refineLoop` at fuel 10 is the exact semantics
of the source's `while` loop — and it performs at most 10 iterations
(`max_iterations = 10`), whether or not convergence is reached. -/
theorem refinement_loop_iteration_cap (env : Env) (useCache : Bool)
    (c : String) (st : LoopState) (extra : ℕ) (h0 : st.iteration = 0) :
    (refineLoop env useCache c 10 st).iteration ≤ 10 ∧
    refineLoop env useCache c (10 + extra) st = refineLoop env useCache c 10 st := by
  constructor
  · have h := refineLoop_iteration_le env useCache c 10 st
    rw [h0] at h
    simpa using h
  · exact refineLoop_fuel_irrelevant env useCache c (10 + extra) 10 st
      (by omega) (by omega)

theorem refinement_loop_iteration_cap_witness :
    loopStateNil.iteration = 0 ∧
    ((refineLoop envTrivial false "car" 10 loopStateNil).iteration ≤ 10 ∧
     refineLoop envTrivial false "car" (10 + 3) loopStateNil =
       refineLoop envTrivial false "car" 10 loopStateNil) :=
  ⟨rfl, refinement_loop_iteration_cap envTrivial false "car" loopStateNil 3 rfl⟩

/-! ## Claim C2 -/

/-- C2 counterexample: the refinement loop converts the midpoint factor
`1025/2048` (the bisection of factors `1/2` and `513/1024`) at original width
`1024` to `int(0.50048828125 * 1024) = int(512.5) = 512`, whereas the claimed
formula `clamp(round(factor * width), 1, width)` yields `513`; so the claimed
rounding is not what the code computes. -/
theorem degraded_dim_round_counterexample :
    degradedDim (1025/2048) 1024 = 512 ∧
    max 1 (min (1024 : ℤ) (round ((1025/2048 : ℚ) * 1024))) = 513 := by
  constructor
  · norm_num [degradedDim, pyint]
  · norm_num [round_eq]

/-- C2 amended: the concrete degraded dimension is
`clamp(trunc(factor * dim), 1, dim)` where `trunc` truncates toward zero
(Python `int`), i.e. the floor for the nonnegative factors used here — not
`round`; the particular scenario of original `1024×768` at factor `0.5` still
yields `(512, 384)`. -/
theorem degraded_dim_floor_clamp (f : ℚ) (W : ℕ) (hf : 0 ≤ f) :
    degradedDim f W = max 1 (min (W : ℤ) ⌊f * W⌋) ∧
    degradedDim (1/2) 1024 = 512 ∧ degradedDim (1/2) 768 = 384 := by
  refine ⟨?_, by norm_num [degradedDim, pyint], by norm_num [degradedDim, pyint]⟩
  unfold degradedDim pyint
  rw [if_pos (mul_nonneg hf (Nat.cast_nonneg W))]

theorem degraded_dim_floor_clamp_witness :
    (0 : ℚ) ≤ 1/2 ∧
    (degradedDim (1/2) 1024 = max 1 (min (1024 : ℤ) ⌊(1/2 : ℚ) * 1024⌋) ∧
     degradedDim (1/2) 1024 = 512 ∧ degradedDim (1/2) 768 = 384) :=
  ⟨by norm_num, degraded_dim_floor_clamp (1/2) 1024 (by norm_num)⟩

/-! ## Claim C6 -/

/-- C6: in every refinement iteration in which both a left and a right
neighbour of the current knee sample exist and their metric deltas are exactly
equal, the `elif` of lines 456-463 chooses the right (higher-resolution) side:
the bisected candidate factor is the midpoint of the current factor and the
right neighbour's factor. -/
theorem tie_prefers_right_neighbor (nk l r dl dr : ℚ) (h : dl = dr) :
    (decideSide nk (some l) (some r) dl dr).map (fun p => bisect p.1 p.2) =
      some ((nk + r) / 2) := by
  subst h
  simp [decideSide, bisect]

theorem tie_prefers_right_neighbor_witness :
    (1/10 : ℚ) = 1/10 ∧
    (decideSide (1/2) (some (1/4)) (some (3/4)) (1/10) (1/10)).map
        (fun p => bisect p.1 p.2) = some (((1/2 : ℚ) + 3/4) / 2) :=
  ⟨rfl, tie_prefers_right_neighbor (1/2) (1/4) (3/4) (1/10) (1/10) rfl⟩

/-! ## Claim C7 -/

/-- A mid-refinement loop state: the previous factor is `1`, the re-detected
knee factor is `1 + 1/100 + 1/200000`, one iteration has run and no `break`
has fired. -/
def stC7 : LoopState :=
  { table := [], disk := none, classRows := [],
    newK := some (1 + 1/100 + 1/200000), oldK := some 1,
    newMAP := none, oldMAP := none, iteration := 1, done := false }

/-- C7 counterexample: with `previous_factor = 1` and
`current_factor = 1 + 1/100 + 1/200000` the loop guard is false — the loop
stops by the factor-convergence check (`done` is false, the iteration cap is
not reached and a current factor exists) — even though the two factors are not
within `1e-2` absolute of each other: `np.isclose` with `atol=1e-2` also
grants numpy's default relative tolerance `1e-5 * |previous_factor|`, so the
check is not a pure absolute comparison as claimed. -/
theorem factor_convergence_counterexample :
    loopGuard stC7 = false ∧
    ¬ (|(1 + 1/100 + 1/200000 : ℚ) - 1| ≤ 1/100) ∧
    stC7.newK = some (1 + 1/100 + 1/200000) ∧ stC7.oldK = some 1 ∧
    stC7.iteration < 10 ∧ stC7.done = false := by
  refine ⟨?_, by norm_num [abs_of_nonneg], rfl, rfl, by norm_num [stC7], rfl⟩
  norm_num [loopGuard, stC7, npIsClose, abs_of_nonneg]

/-- C7 amended: in every refinement iteration where `previous_factor` is not
null (and no `break` has fired and the iteration cap is not reached), the loop
terminates by the factor-convergence check exactly when
`|current_factor - previous_factor| ≤ 1e-2 + 1e-5 * |previous_factor|` — the
semantics of `np.isclose(current, previous, atol=1e-2)` with numpy's default
relative tolerance — rather than a pure absolute `1e-2` comparison. -/
theorem factor_convergence_tolerance (st : LoopState) (nf of : ℚ)
    (hd : st.done = false) (hn : st.newK = some nf) (ho : st.oldK = some of)
    (hi : st.iteration < 10) :
    loopGuard st = false ↔ |nf - of| ≤ 1/100 + |of| / 100000 := by
  simp [loopGuard, hd, hn, ho, hi, npIsClose]

theorem factor_convergence_tolerance_witness :
    stC7.done = false ∧ stC7.newK = some (1 + 1/100 + 1/200000) ∧
    stC7.oldK = some 1 ∧ stC7.iteration < 10 ∧
    (loopGuard stC7 = false ↔
      |(1 + 1/100 + 1/200000 : ℚ) - 1| ≤ 1/100 + |(1 : ℚ)| / 100000) :=
  ⟨rfl, rfl, rfl, by norm_num [stC7],
    factor_convergence_tolerance stC7 (1 + 1/100 + 1/200000) 1 rfl rfl rfl
      (by norm_num [stC7])⟩

/-! ## Claim C3 -/

/-- Rewriting lemma for `calculate_knee`: its result is a function of the
noise-floor-filtered sample list alone — `([], [])` when the filter leaves
nothing (which is also exactly the case in which every mAP is at or below
`0.01`), and the elbow fit on the filtered factors and mAPs otherwise. -/
theorem calculate_knee_eq (fit : List ℚ → List ℚ → List ℚ × List ℚ)
    (rows : List Row) :
    calculate_knee fit rows =
      if rows.filter (fun r => decide (r.mAP > 1/100)) = [] then ([], [])
      else
        fit ((rows.filter (fun r => decide (r.mAP > 1/100))).map (·.factor))
            ((rows.filter (fun r => decide (r.mAP > 1/100))).map (·.mAP)) := by
  simp only [calculate_knee]
  by_cases h : rows.filter (fun r => decide (r.mAP > 1/100)) = []
  · have hall : ((rows.map (·.mAP)).all (fun m => decide (m ≤ 1/100))) = true := by
      rw [List.all_eq_true]
      intro m hm
      rw [List.mem_map] at hm
      obtain ⟨r, hr, rfl⟩ := hm
      rw [List.filter_eq_nil_iff] at h
      have hr2 := h r hr
      simp only [decide_eq_true_eq] at hr2 ⊢
      exact le_of_not_lt hr2
    rw [hall, if_pos h]
    simp
  · have hne : ∃ r ∈ rows, (1:ℚ)/100 < r.mAP := by
      rcases List.exists_mem_of_ne_nil _ h with ⟨r, hr⟩
      rw [List.mem_filter] at hr
      exact ⟨r, hr.1, by simpa using hr.2⟩
    have hall : ((rows.map (·.mAP)).all (fun m => decide (m ≤ 1/100))) = false := by
      rw [Bool.eq_false_iff]
      intro hcon
      rw [List.all_eq_true] at hcon
      obtain ⟨r, hr, hlt⟩ := hne
      have hc := hcon r.mAP (List.mem_map_of_mem _ hr)
      simp only [decide_eq_true_eq] at hc
      exact absurd hc (not_le.mpr hlt)
    have hx : ¬ ((rows.filter (fun r => decide (r.mAP > 1/100))).map (·.factor) = [] ∨
        (rows.filter (fun r => decide (r.mAP > 1/100))).map (·.mAP) = []) := by
      rintro (hc | hc) <;>
        exact h (by simpa using hc)
    rw [hall, if_neg h]
    simp only [Bool.false_eq_true, if_false]
    rw [if_neg hx]

/-- C3: `calculate_knee` filters out every sample whose mAP is at or below the
`0.01` noise floor before fitting — two sample lists with the same above-floor
samples produce the same result, so floor samples never influence the detected
knee — and for every input in which all mAPs are at or below the floor it
returns the empty result `([], [])` rather than raising an error. -/
theorem calculate_knee_noise_floor (fit : List ℚ → List ℚ → List ℚ × List ℚ) :
    (∀ rows1 rows2 : List Row,
        rows1.filter (fun r => decide (r.mAP > 1/100)) =
          rows2.filter (fun r => decide (r.mAP > 1/100)) →
        calculate_knee fit rows1 = calculate_knee fit rows2) ∧
    (∀ rows : List Row, (∀ r ∈ rows, r.mAP ≤ 1/100) →
        calculate_knee fit rows = ([], [])) := by
  constructor
  · intro rows1 rows2 h
    rw [calculate_knee_eq, calculate_knee_eq, h]
  · intro rows h
    rw [calculate_knee_eq, if_pos]
    rw [List.filter_eq_nil_iff]
    intro r hr
    simpa using not_lt.mpr (h r hr)

/-- The identity elbow fit, used as a concrete environment for witnesses. -/
def fitId : List ℚ → List ℚ → List ℚ × List ℚ := fun x y => (x, y)

theorem calculate_knee_noise_floor_witness :
    (([⟨"car", 100, 100, 1/2, 1/2, false⟩] : List Row).filter
        (fun r => decide (r.mAP > 1/100)) =
      ([⟨"car", 100, 100, 1/2, 1/2, false⟩,
        ⟨"car", 100, 100, 1/4, 1/200, false⟩] : List Row).filter
        (fun r => decide (r.mAP > 1/100)) ∧
      calculate_knee fitId [⟨"car", 100, 100, 1/2, 1/2, false⟩] =
        calculate_knee fitId [⟨"car", 100, 100, 1/2, 1/2, false⟩,
          ⟨"car", 100, 100, 1/4, 1/200, false⟩]) ∧
    ((∀ r ∈ ([⟨"bike", 100, 100, 1/2, 0, false⟩] : List Row), r.mAP ≤ 1/100) ∧
      calculate_knee fitId [⟨"bike", 100, 100, 1/2, 0, false⟩] = ([], [])) := by
  have hfil : (([⟨"car", 100, 100, 1/2, 1/2, false⟩] : List Row).filter
      (fun r => decide (r.mAP > 1/100)) =
    ([⟨"car", 100, 100, 1/2, 1/2, false⟩,
      ⟨"car", 100, 100, 1/4, 1/200, false⟩] : List Row).filter
      (fun r => decide (r.mAP > 1/100))) := by
    norm_num [List.filter_cons, List.filter_nil]
  have hlow : ∀ r ∈ ([⟨"bike", 100, 100, 1/2, 0, false⟩] : List Row),
      r.mAP ≤ 1/100 := by
    intro r hr
    rw [List.mem_singleton] at hr
    subst hr
    norm_num
  exact ⟨⟨hfil, (calculate_knee_noise_floor fitId).1 _ _ hfil⟩,
    ⟨hlow, (calculate_knee_noise_floor fitId).2 _ hlow⟩⟩

/-! ## Claim C9 -/

/-- Counting fold: folding `+1`-on-`p` over a list starting at `n` gives `n`
plus the number of elements satisfying `p`. -/
theorem foldl_count_eq {α : Type} (p : α → Bool) :
    ∀ (l : List α) (n : ℕ),
      l.foldl (fun cc a => if p a then cc + 1 else cc) n =
        n + (l.filter p).length := by
  intro l
  induction l with
  | nil => intro n; simp
  | cons a t ih =>
      intro n
      by_cases h : p a <;>
        · simp [List.foldl_cons, List.filter_cons, h, ih]
          try omega

/-- C9 counterexample: for a working list holding one corrupted image (files
present, no degraded copy yet, decode fails) at a genuinely degraded
resolution, `degrade_images` returns `(1, 1)` — its first component counts the
corrupted image although zero images were processed successfully. -/
theorem degrade_images_count_counterexample :
    degrade_images false [⟨true, true, false, true⟩] 0 = (1, 1) ∧
    specValidProcessed false [⟨true, true, false, true⟩] = 0 :=
  ⟨rfl, rfl⟩

/-- C9 amended: `degrade_images` returns as its first component the total
number of images in its working list — corrupted and missing-file images
included (`num_images = len(val_image_filenames)` is computed before the
loop) — not the number of valid images actually processed; the second
component is the incoming corrupted counter plus the number of images that hit
the `OSError` path in this pass. -/
theorem degrade_images_returns_total_count (sameSize : Bool)
    (images : List ImgAsset) (counter : ℕ) :
    degrade_images sameSize images counter =
      (images.length,
       counter + (images.filter (corruptsThisPass sameSize)).length) := by
  unfold degrade_images
  rw [foldl_count_eq]

/-! ## Claim C8 -/

/-- Head unfolding of `calc_degradation_factor`. -/
theorem calc_degradation_factor_cons (a b e d : ℝ) (ow oh ew eh : List ℝ) :
    calc_degradation_factor (a :: ow) (b :: oh) (e :: ew) (d :: eh) =
      Real.sqrt ((e / a) * (d / b)) :: calc_degradation_factor ow oh ew eh := rfl

/-- Elementwise value of `calc_degradation_factor`, preserving row order. -/
theorem calc_degradation_factor_getD :
    ∀ (ow oh ew eh : List ℝ) (i : ℕ), i < ow.length → i < oh.length →
      i < ew.length → i < eh.length →
      (calc_degradation_factor ow oh ew eh).getD i 0 =
        Real.sqrt ((ew.getD i 0 / ow.getD i 0) * (eh.getD i 0 / oh.getD i 0)) := by
  intro ow
  induction ow with
  | nil => intro oh ew eh i h1 h2 h3 h4; simp at h1
  | cons a ow ih =>
      intro oh ew eh i h1 h2 h3 h4
      cases oh with
      | nil => simp at h2
      | cons b oh =>
        cases ew with
        | nil => simp at h3
        | cons e ew =>
          cases eh with
          | nil => simp at h4
          | cons d eh =>
            rw [calc_degradation_factor_cons]
            cases i with
            | zero => simp
            | succ j =>
                simp only [List.getD_cons_succ]
                exact ih oh ew eh j (by simpa using h1) (by simpa using h2)
                  (by simpa using h3) (by simpa using h4)

/-- `calc_degradation_factor` preserves the batch length. -/
theorem calc_degradation_factor_length (ow oh ew eh : List ℝ) (n : ℕ)
    (h1 : ow.length = n) (h2 : oh.length = n) (h3 : ew.length = n)
    (h4 : eh.length = n) :
    (calc_degradation_factor ow oh ew eh).length = n := by
  simp [calc_degradation_factor, List.length_zipWith, h1, h2, h3, h4]

/-- C8: `calc_degradation_factor` operates elementwise over a batch of
original/effective resolutions, preserving row order and batch length; each
entry with positive original dimensions equals
`sqrt((effective_w / original_w) * (effective_h / original_h))
 = sqrt((ew * eh) / (ow * oh))`, and the entry is exactly `1` whenever the
effective resolution equals the original. -/
theorem calc_degradation_factor_spec (ow oh ew eh : List ℝ) (n : ℕ)
    (h1 : ow.length = n) (h2 : oh.length = n) (h3 : ew.length = n)
    (h4 : eh.length = n) (i : ℕ) (hi : i < n)
    (hw : 0 < ow.getD i 0) (hh : 0 < oh.getD i 0) :
    (calc_degradation_factor ow oh ew eh).length = n ∧
    (calc_degradation_factor ow oh ew eh).getD i 0 =
      Real.sqrt ((ew.getD i 0 * eh.getD i 0) / (ow.getD i 0 * oh.getD i 0)) ∧
    (ew.getD i 0 = ow.getD i 0 → eh.getD i 0 = oh.getD i 0 →
      (calc_degradation_factor ow oh ew eh).getD i 0 = 1) := by
  have hg := calc_degradation_factor_getD ow oh ew eh i (by omega) (by omega)
    (by omega) (by omega)
  refine ⟨calc_degradation_factor_length ow oh ew eh n h1 h2 h3 h4, ?_, ?_⟩
  · rw [hg, div_mul_div_comm]
  · intro he1 he2
    rw [hg, he1, he2, div_self (ne_of_gt hw), div_self (ne_of_gt hh), mul_one,
      Real.sqrt_one]

theorem calc_degradation_factor_spec_witness :
    ([(4:ℝ)].length = 1 ∧ [(4:ℝ)].length = 1 ∧ [(2:ℝ)].length = 1 ∧
      [(2:ℝ)].length = 1 ∧ (0:ℕ) < 1 ∧ (0:ℝ) < [(4:ℝ)].getD 0 0 ∧
      (0:ℝ) < [(4:ℝ)].getD 0 0) ∧
    ((calc_degradation_factor [4] [4] [2] [2]).length = 1 ∧
     (calc_degradation_factor [4] [4] [2] [2]).getD 0 0 =
       Real.sqrt (([(2:ℝ)].getD 0 0 * [(2:ℝ)].getD 0 0) /
         ([(4:ℝ)].getD 0 0 * [(4:ℝ)].getD 0 0)) ∧
     ([(2:ℝ)].getD 0 0 = [(4:ℝ)].getD 0 0 → [(2:ℝ)].getD 0 0 = [(4:ℝ)].getD 0 0 →
       (calc_degradation_factor [4] [4] [2] [2]).getD 0 0 = 1)) := by
  refine ⟨⟨rfl, rfl, rfl, rfl, by norm_num, ?_, ?_⟩, ?_⟩
  · show (0:ℝ) < [(4:ℝ)].getD 0 0
    norm_num
  · show (0:ℝ) < [(4:ℝ)].getD 0 0
    norm_num
  · exact calc_degradation_factor_spec [4] [4] [2] [2] 1 rfl rfl rfl rfl 0
      (by norm_num) (by norm_num) (by norm_num)

/-! ## Flag bookkeeping lemmas (claims C4 and C10) -/

/-- Overwrite the knee flag of a row by a boolean function of the row. -/
def setFlag (b : Row → Bool) (r : Row) : Row := { r with knee := b r }

/-- `r` is a row of class `c` whose factor is `np.isclose` (atol `1e-5`) to
the class's primary knee candidate computed from table `T` — the flagging
criterion of lines 525 and 540 of the source. -/
def classMatch (env : Env) (T : Table) (c : String) (r : Row) : Bool :=
  (r.objectName == c) &&
    match classKnee env T c with
    | some k => npIsClose r.factor k (1/100000)
    | none => false

/-- The rows flagged by the no-algorithm pass over the class list `cs`. -/
def noneFlags (env : Env) (T : Table) (cs : List String) (r : Row) : Bool :=
  cs.any (fun c => classMatch env T c r)

/-- `calculate_knee` only reads the `factor` and `mAP` columns: it is
invariant under any row map preserving them (such as flag updates). -/
theorem calculate_knee_map (fit : List ℚ → List ℚ → List ℚ × List ℚ)
    (g : Row → Row) (hf : ∀ r, (g r).factor = r.factor)
    (hm : ∀ r, (g r).mAP = r.mAP) (l : List Row) :
    calculate_knee fit (l.map g) = calculate_knee fit l := by
  rw [calculate_knee_eq, calculate_knee_eq]
  have hfil : (l.map g).filter (fun r => decide (r.mAP > 1/100)) =
      (l.filter (fun r => decide (r.mAP > 1/100))).map g := by
    rw [List.filter_map]
    exact congrArg _ (List.filter_congr (fun a _ => by
      simp [Function.comp, hm]))
  rw [hfil]
  by_cases h : l.filter (fun r => decide (r.mAP > 1/100)) = []
  · rw [h]
    simp only [List.map_nil]
  · have hne : (l.filter (fun r => decide (r.mAP > 1/100))).map g ≠ [] := by
      intro hc
      rw [List.map_eq_nil_iff] at hc
      exact h hc
    rw [if_neg hne, if_neg h]
    congr 1
    · rw [List.map_map]
      exact List.map_congr_left (fun a _ => hf a)
    · rw [List.map_map]
      exact List.map_congr_left (fun a _ => hm a)

/-- Filtering by class commutes with any row map preserving `objectName`. -/
theorem filter_class_map (g : Row → Row)
    (ho : ∀ r, (g r).objectName = r.objectName) (T : List Row) (c : String) :
    (T.map g).filter (fun r => r.objectName == c) =
      (T.filter (fun r => r.objectName == c)).map g := by
  rw [List.filter_map]
  exact congrArg _ (List.filter_congr (fun a _ => by
    simp [Function.comp, ho]))

/-- The per-class knee candidate is invariant under row maps preserving the
class name, the factor and the metric (such as flag updates). -/
theorem classKnee_map (env : Env) (g : Row → Row)
    (ho : ∀ r, (g r).objectName = r.objectName)
    (hf : ∀ r, (g r).factor = r.factor) (hm : ∀ r, (g r).mAP = r.mAP)
    (T : Table) (c : String) :
    classKnee env (T.map g) c = classKnee env T c := by
  unfold classKnee
  rw [filter_class_map g ho, calculate_knee_map env.fit g hf hm]

/-- One no-algorithm marking step on a flag-decorated table just extends the
flag function by the class's match predicate. -/
theorem noneMark_setFlag (env : Env) (T : Table) (b : Row → Bool) (c : String) :
    noneMark env (T.map (setFlag b)) c =
      T.map (setFlag (fun r => b r || classMatch env T c r)) := by
  cases hk : classKnee env T c with
  | none =>
      simp only [noneMark,
        classKnee_map env (setFlag b) (fun _ => rfl) (fun _ => rfl) (fun _ => rfl),
        hk]
      exact List.map_congr_left (fun a _ => by simp [setFlag, classMatch, hk])
  | some k =>
      simp only [noneMark,
        classKnee_map env (setFlag b) (fun _ => rfl) (fun _ => rfl) (fun _ => rfl),
        hk, List.map_map]
      refine List.map_congr_left (fun a _ => ?_)
      by_cases h1 : a.objectName = c
      · by_cases h2 : npIsClose a.factor k (100000⁻¹ : ℚ) = true
        · simp [Function.comp, setFlag, classMatch, hk, h1, h2]
        · simp [Function.comp, setFlag, classMatch, hk, h1, h2]
      · simp [Function.comp, setFlag, classMatch, hk, h1]

/-- The whole no-algorithm per-class pass over a flag-decorated table extends
the flag function by the match predicates of all processed classes. -/
theorem noneMark_fold (env : Env) (T : Table) :
    ∀ (cs : List String) (b : Row → Bool),
      cs.foldl (noneMark env) (T.map (setFlag b)) =
        T.map (setFlag (fun r => b r || noneFlags env T cs r)) := by
  intro cs
  induction cs with
  | nil =>
      intro b
      simp only [List.foldl_nil]
      exact List.map_congr_left (fun a _ => by
        simp [setFlag, noneFlags])
  | cons c cs ih =>
      intro b
      rw [List.foldl_cons, noneMark_setFlag, ih]
      exact List.map_congr_left (fun a _ => by
        simp [setFlag, noneFlags, List.any_cons, Bool.or_assoc])

/-- The per-class fold of the no-algorithm branch only touches the table
component of the run state. -/
theorem foldl_processClassNone (env : Env) :
    ∀ (cs : List String) (T : Table) (d : Option Table),
      cs.foldl (fun st c => processClassNone env st c) { table := T, disk := d } =
        { table := cs.foldl (noneMark env) T, disk := d } := by
  intro cs
  induction cs with
  | nil => intro T d; rfl
  | cons c cs ih =>
      intro T d
      rw [List.foldl_cons, List.foldl_cons]
      exact ih (noneMark env T c) d

/-- Closed form of the loaded-table stage without a search algorithm: every
row of the loaded table gets its flag replaced by the disjunction of the
per-class match predicates; the initial disk contents are irrelevant. -/
theorem runLoaded_none_eq (env : Env) (u : Bool) (t0 : Table)
    (d : Option Table) :
    runLoaded env false u t0 d =
      { table := t0.map (setFlag (fun r =>
          noneFlags env t0 (pdUnique (t0.map (·.objectName))) r)),
        disk := some (t0.map (setFlag (fun r =>
          noneFlags env t0 (pdUnique (t0.map (·.objectName))) r))) } := by
  have hreset : t0.map (fun r => { r with knee := false }) =
      t0.map (setFlag (fun _ => false)) := rfl
  have hnames : (t0.map (setFlag (fun _ => false))).map (·.objectName) =
      t0.map (·.objectName) := by
    rw [List.map_map]
    rfl
  have hf : (fun (st : RunState) (c : String) =>
      if (false : Bool) = true then processClassBinary env u st c
      else processClassNone env st c) = fun st c => processClassNone env st c := by
    funext st c
    simp
  have hmap : ∀ cs, t0.map (setFlag (fun r => false || noneFlags env t0 cs r)) =
      t0.map (setFlag (fun r => noneFlags env t0 cs r)) := fun cs =>
    List.map_congr_left (fun a _ => by simp [setFlag])
  simp only [runLoaded, hreset, hnames, hf, foldl_processClassNone,
    noneMark_fold, hmap]

/-- Closed form of a cache-less `run_knee_discovery` without a search
algorithm. -/
theorem run_none_eq (env : Env) (t0 : Table) :
    run_knee_discovery env false none (some t0) =
      some { table := t0.map (setFlag (fun r =>
               noneFlags env t0 (pdUnique (t0.map (·.objectName))) r)),
             disk := some (t0.map (setFlag (fun r =>
               noneFlags env t0 (pdUnique (t0.map (·.objectName))) r))) } := by
  simp only [run_knee_discovery]
  exact congrArg some (runLoaded_none_eq env false t0 (some t0))

/-- The global reset of line 380 makes a pre-reset flag clearing invisible. -/
theorem reset_clearFlags (t0 : Table) :
    (clearFlags t0).map (fun r => { r with knee := false }) =
      t0.map (fun r => { r with knee := false }) := by
  rw [clearFlags, List.map_map]
  rfl

/-- The loaded-table stage ignores the knee flags of the loaded table. -/
theorem runLoaded_clearFlags (env : Env) (alg u : Bool) (t0 : Table)
    (d : Option Table) :
    runLoaded env alg u (clearFlags t0) d = runLoaded env alg u t0 d := by
  simp only [runLoaded, reset_clearFlags]

/-- Without a search algorithm the run result does not depend on the initial
disk contents or the cache mode. -/
theorem runLoaded_none_disk (env : Env) (u1 u2 : Bool) (t : Table)
    (d1 d2 : Option Table) :
    runLoaded env false u1 t d1 = runLoaded env false u2 t d2 := by
  rw [runLoaded_none_eq, runLoaded_none_eq]

/-- No two rows of one class sit within the `np.isclose` flagging tolerance of
a common knee value (in particular, per-class degradation factors are pairwise
separated by more than the tolerance). -/
def NoNearDuplicates (t : Table) : Prop :=
  ∀ (k : ℚ) (c : String),
    (t.filter (fun r =>
      r.objectName == c && npIsClose r.factor k (1/100000))).length ≤ 1

/-- Filtering with a stronger predicate yields at most as many rows. -/
theorem length_filter_mono {α : Type} (p q : α → Bool) :
    ∀ l : List α, (∀ a, p a = true → q a = true) →
      (l.filter p).length ≤ (l.filter q).length := by
  intro l h
  induction l with
  | nil => simp
  | cons a t ih =>
      rw [List.filter_cons, List.filter_cons]
      by_cases hp : p a = true
      · rw [if_pos hp, if_pos (h a hp)]
        simpa using ih
      · rw [if_neg hp]
        by_cases hq : q a = true
        · rw [if_pos hq]
          exact le_trans ih (by simp)
        · rw [if_neg hq]
          exact ih

/-- A row flagged by the no-algorithm pass of run `cs` over base table `t0`
belongs to its own class's match set. -/
theorem flag_pred_implies (env : Env) (t0 : Table) (cs : List String)
    (c : String) (a : Row)
    (h : ((setFlag (fun r => noneFlags env t0 cs r) a).objectName == c &&
          (setFlag (fun r => noneFlags env t0 cs r) a).knee) = true) :
    (a.objectName == c) = true ∧ classMatch env t0 c a = true := by
  rw [Bool.and_eq_true] at h
  obtain ⟨h1, h2⟩ := h
  have h1a : (a.objectName == c) = true := h1
  refine ⟨h1a, ?_⟩
  have h2a : noneFlags env t0 cs a = true := h2
  rw [noneFlags, List.any_eq_true] at h2a
  obtain ⟨c2, _, hm⟩ := h2a
  have hmm := hm
  unfold classMatch at hmm
  rw [Bool.and_eq_true] at hmm
  have hcc : c2 = c := (beq_iff_eq.mp hmm.1).symm.trans (beq_iff_eq.mp h1a)
  subst hcc
  exact hm

/-- C4 amended: after a full cache-less run with no search algorithm
configured, the rows flagged for a class are exactly those whose degradation
factor is `np.isclose` (atol `1e-5`, default rtol `1e-5`) to the class's
primary knee; hence at most one row per class is flagged provided no two rows
of a class are both within that tolerance of a common knee value
(`NoNearDuplicates`).  Without that separation several rows of one class can
be flagged, as the counterexample shows. -/
theorem knee_flag_at_most_one_separated (env : Env) (t0 : Table)
    (hsep : NoNearDuplicates t0) (c : String) :
    countFlag c (finalTable (run_knee_discovery env false none (some t0))) ≤ 1 := by
  rw [run_none_eq]
  unfold finalTable countFlag
  rw [List.filter_map, List.length_map]
  cases hk : classKnee env t0 c with
  | none =>
      refine le_trans (length_filter_mono _ (fun _ => false) t0 ?_) (by simp)
      intro a ha
      obtain ⟨h1, hm⟩ := flag_pred_implies env t0 _ c a ha
      rw [classMatch, hk, Bool.and_eq_true] at hm
      simpa using hm.2
  | some k =>
      refine le_trans
        (length_filter_mono _
          (fun r => r.objectName == c && npIsClose r.factor k (1/100000)) t0 ?_)
        (hsep k c)
      intro a ha
      obtain ⟨h1, hm⟩ := flag_pred_implies env t0 _ c a ha
      rw [classMatch, hk] at hm
      exact hm

/-- A one-row table and an identity-fit environment for the witness. -/
def rowW : Row := ⟨"car", 1024, 768, 1/2, 9/10, false⟩

/-- Identity-fit environment whose evaluator changes nothing. -/
def envW : Env :=
  { fit := fun x y => (x, y),
    runEvalDisk := fun d _ _ => d,
    runEvalCache := fun t _ _ => t }

theorem knee_flag_at_most_one_separated_witness :
    NoNearDuplicates [rowW] ∧
    countFlag "car"
      (finalTable (run_knee_discovery envW false none (some [rowW]))) ≤ 1 := by
  have hsep : NoNearDuplicates [rowW] := by
    intro k c
    exact le_trans (List.length_filter_le _ _) (by simp)
  exact ⟨hsep, knee_flag_at_most_one_separated envW [rowW] hsep "car"⟩

/-- An environment whose elbow fit always reports the knee `1/2`. -/
def envC4 : Env :=
  { fit := fun _ _ => ([1/2], [1/2]),
    runEvalDisk := fun d _ _ => d,
    runEvalCache := fun t _ _ => t }

/-- A table whose class `"A"` holds two rows with degradation factors `1/2`
and `1/2 + 1e-5`, both within the flagging tolerance of the knee `1/2`. -/
def T4 : Table :=
  [⟨"A", 1024, 768, 1/2, 1/2, false⟩,
   ⟨"A", 1024, 768, 1/2 + 1/100000, 1/2, false⟩]

theorem string_aa : (("A" : String) = "A") = True := by simp

/-- C4 counterexample: after a full run of `run_knee_discovery` on `T4` (no
search algorithm, no cache), **two** rows of class `"A"` carry the knee flag:
the flagging criterion `np.isclose(degradation_factor, knee, atol=1e-5)` of
line 540 (and line 525 in the binary branch) matches both rows, so flag
exclusivity fails for factors closer than the tolerance. -/
theorem knee_flag_exclusivity_counterexample :
    countFlag "A" (finalTable (run_knee_discovery envC4 false none (some T4))) = 2 := by
  norm_num [run_knee_discovery, runLoaded, processClassNone, noneMark, classKnee,
    calculate_knee, primaryKnee, pdUnique, countFlag, finalTable, envC4, T4,
    npIsClose, List.filter_cons, List.filter_nil, string_aa, List.cons_ne_nil,
    abs_of_nonneg, abs_of_nonpos]

/-! ## Claim C10, amended theorem -/

/-- C10 amended: the reset of line 380 runs unconditionally before per-class
processing, so the run result never depends on the knee flags of the loaded
table: loading a previously persisted table gives the same outcome as loading
it with every flag cleared — both when an in-memory cache is in use (any
search algorithm; the cache is never re-read from disk) and in a cache-less
run without a search algorithm (the disk is never re-read).  Persisted flags
can only resurface through the mid-refinement disk re-read of the binary
branch without a cache, as the counterexample shows. -/
theorem knee_flags_do_not_survive_without_disk_reread (env : Env) (alg : Bool)
    (t0 : Table) (d0 : Option Table) :
    run_knee_discovery env alg (some t0) d0 =
      run_knee_discovery env alg (some (clearFlags t0)) d0 ∧
    run_knee_discovery env false none (some t0) =
      run_knee_discovery env false none (some (clearFlags t0)) := by
  constructor
  · simp only [run_knee_discovery, runLoaded_clearFlags]
  · simp only [run_knee_discovery]
    exact congrArg some
      (((runLoaded_clearFlags env false false t0 (some (clearFlags t0))).trans
        (runLoaded_none_disk env false false t0 (some (clearFlags t0))
          (some t0))).symm)

/-! ## Claim C10, counterexample -/

/-- An environment for the C10 counterexample: the elbow fit reports the knee
`1/2` for curves with at least two points (and nothing for smaller curves),
and `run_eval` appends its freshly evaluated row for class `"B"` at factor
`5/8` to the persisted file — preserving, as a file append does, every row
already in the file, including previously persisted knee flags. -/
def envC10 : Env :=
  { fit := fun x _ => if x.length ≥ 2 then ([1/2], [1/2]) else ([], []),
    runEvalDisk := fun d _ _ =>
      d.map (fun t => t ++ [⟨"B", 1024, 768, 5/8, 7/10, false⟩]),
    runEvalCache := fun t _ _ => t }

/-- A previously persisted table: class `"A"` still carries a knee flag from
an earlier run; class `"B"` has two unflagged rows. -/
def T10 : Table :=
  [⟨"A", 1024, 768, 9/10, 1/2, true⟩,
   ⟨"B", 1024, 768, 1/2, 1/2, false⟩,
   ⟨"B", 1024, 768, 3/4, 9/10, false⟩]

/-- `T10` after the in-memory reset of line 380. -/
def T10r : Table :=
  [⟨"A", 1024, 768, 9/10, 1/2, false⟩,
   ⟨"B", 1024, 768, 1/2, 1/2, false⟩,
   ⟨"B", 1024, 768, 3/4, 9/10, false⟩]

/-- The table written at the end of the C10 counterexample run: the stale
flag of class `"A"` — reset in memory but intact in the re-read file — is back,
although class `"A"`'s own refinement found no knee. -/
def F10 : Table :=
  [⟨"A", 1024, 768, 9/10, 1/2, true⟩,
   ⟨"B", 1024, 768, 1/2, 1/2, true⟩,
   ⟨"B", 1024, 768, 3/4, 9/10, false⟩,
   ⟨"B", 1024, 768, 5/8, 7/10, false⟩]

theorem processA_envC10 :
    processClassBinary envC10 false { table := T10r, disk := some T10 } "A" =
      { table := T10r, disk := some T10 } := by
  norm_num [processClassBinary, refineLoop, loopGuard, loopBody, loopCore,
    calculate_knee, primaryKnee, envC10, T10, T10r, npIsClose,
    sortByFactor, insertSorted, findCloseIdx, decideSide, bisect,
    degradedDim, pyint, List.filter_cons, List.filter_nil,
    string_ab, string_ba, List.cons_ne_nil, abs_of_nonneg, abs_of_nonpos]

theorem processB_envC10 :
    processClassBinary envC10 false { table := T10r, disk := some T10 } "B" =
      { table := F10, disk := some (T10 ++ [⟨"B", 1024, 768, 5/8, 7/10, false⟩]) } := by
  norm_num [processClassBinary, refineLoop, loopGuard, loopBody, loopCore,
    calculate_knee, primaryKnee, envC10, T10, T10r, F10, npIsClose,
    sortByFactor, insertSorted, findCloseIdx, decideSide, bisect,
    degradedDim, pyint, List.filter_cons, List.filter_nil,
    string_ab, string_ba, List.cons_ne_nil, abs_of_nonneg, abs_of_nonpos]

theorem run_envC10_eval :
    run_knee_discovery envC10 true none (some T10) =
      some { table := F10, disk := some F10 } := by
  have hreset : T10.map (fun r => { r with knee := false }) = T10r := by
    norm_num [T10, T10r]
  have hnames : pdUnique (T10r.map (·.objectName)) = ["A", "B"] := by
    norm_num [T10r, pdUnique, string_ab, string_ba]
  simp only [run_knee_discovery, runLoaded, hreset, hnames]
  simp only [List.foldl_cons, List.foldl_nil, if_pos rfl, if_true,
    processA_envC10, processB_envC10]

/-- C10 counterexample: a cache-less binary-search run over `T10` — whose
class `"A"` row still carries a knee flag persisted by an earlier run — ends
with that stale flag back in the written table, even though the reset of line
380 cleared it and class `"A"`'s own refinement found no knee: during class
`"B"`'s refinement the table is re-read from the persisted file (line 507),
whose class-`"A"` row was never reset, so the loaded flag survives the run. -/
theorem knee_reset_persistence_counterexample :
    run_knee_discovery envC10 true none (some T10) =
      some { table := F10, disk := some F10 } ∧
    countFlag "A" F10 = 1 ∧
    T10.filter (fun r => r.objectName == "A" && r.knee) =
      [⟨"A", 1024, 768, 9/10, 1/2, true⟩] ∧
    classKnee envC10 T10r "A" = none := by
  refine ⟨run_envC10_eval, by norm_num [countFlag, F10, string_ba], ?_, ?_⟩
  · norm_num [T10, List.filter_cons, List.filter_nil, string_ab, string_ba]
  · norm_num [classKnee, calculate_knee, primaryKnee, envC10, T10r,
      List.filter_cons, List.filter_nil, string_ab, string_ba]

/-! ## Claim C5 -/

/-- An environment for the C5 scenario: the elbow fit always reports knee
`1/2`, and the persisted results file is missing after every `run_eval` (the
write failed or the file was removed mid-run). -/
def envC5 : Env :=
  { fit := fun _ _ => ([1/2], [1/2]),
    runEvalDisk := fun _ _ _ => none,
    runEvalCache := fun t _ _ => t }

/-- Initial table for the C5 scenario: class `"A"` has a two-point curve (so
its refinement reaches the evaluation step and the re-read), class `"B"` is
processed afterwards. -/
def T5 : Table :=
  [⟨"A", 1024, 768, 1/2, 1/2, false⟩,
   ⟨"A", 1024, 768, 3/4, 9/10, false⟩,
   ⟨"B", 1024, 768, 1/2, 1/2, false⟩]

/-- The table written at the end of the C5 run: class `"B"` was processed and
flagged after the missing-file `break` in class `"A"`'s refinement. -/
def F5 : Table :=
  [⟨"A", 1024, 768, 1/2, 1/2, true⟩,
   ⟨"A", 1024, 768, 3/4, 9/10, false⟩,
   ⟨"B", 1024, 768, 1/2, 1/2, true⟩]

theorem processA_envC5 :
    processClassBinary envC5 false { table := T5, disk := some T5 } "A" =
      { table := [⟨"A", 1024, 768, 1/2, 1/2, true⟩,
                  ⟨"A", 1024, 768, 3/4, 9/10, false⟩,
                  ⟨"B", 1024, 768, 1/2, 1/2, false⟩],
        disk := none } := by
  norm_num [processClassBinary, refineLoop, loopGuard, loopBody, loopCore,
    calculate_knee, primaryKnee, envC5, T5, npIsClose,
    sortByFactor, insertSorted, findCloseIdx, decideSide, bisect,
    degradedDim, pyint, List.filter_cons, List.filter_nil,
    string_ab, string_ba, List.cons_ne_nil, abs_of_nonneg, abs_of_nonpos]

theorem processB_envC5 :
    processClassBinary envC5 false
      { table := [⟨"A", 1024, 768, 1/2, 1/2, true⟩,
                  ⟨"A", 1024, 768, 3/4, 9/10, false⟩,
                  ⟨"B", 1024, 768, 1/2, 1/2, false⟩],
        disk := none } "B" =
      { table := F5, disk := none } := by
  norm_num [processClassBinary, refineLoop, loopGuard, loopBody, loopCore,
    calculate_knee, primaryKnee, envC5, F5, npIsClose,
    sortByFactor, insertSorted, findCloseIdx, decideSide, bisect,
    degradedDim, pyint, List.filter_cons, List.filter_nil,
    string_ab, string_ba, List.cons_ne_nil, abs_of_nonneg, abs_of_nonpos]

theorem run_envC5_eval :
    run_knee_discovery envC5 true none (some T5) =
      some { table := F5, disk := some F5 } := by
  have hreset : T5.map (fun r => { r with knee := false }) = T5 := by
    norm_num [T5]
  have hnames : pdUnique (T5.map (·.objectName)) = ["A", "B"] := by
    norm_num [T5, pdUnique, string_ab, string_ba]
  simp only [run_knee_discovery, runLoaded, hreset, hnames]
  simp only [List.foldl_cons, List.foldl_nil, if_pos rfl, if_true,
    processA_envC5, processB_envC5]

/-- C5 counterexample: in the cache-less binary run over `T5` the persisted
file is already missing when class `"A"`'s refinement re-reads it after its
first evaluation (the environment's `run_eval` leaves no file behind), yet the
run does not stop: only class `"A"`'s refinement breaks, class `"B"` is still
processed and flagged, and the final table is written.  The claimed
whole-run abort happens only at the initial load. -/
theorem missing_results_file_counterexample :
    envC5.runEvalDisk (some T5) (1024, 768) (640, 480) = none ∧
    run_knee_discovery envC5 true none (some T5) =
      some { table := F5, disk := some F5 } ∧
    countFlag "B" F5 = 1 := by
  refine ⟨rfl, run_envC5_eval, ?_⟩
  norm_num [countFlag, F5, string_ab]

/-- C5 amended: a missing persisted results file with no in-memory cache is a
whole-run abort only at the initial load (nothing is processed or written);
when the file goes missing at the mid-refinement re-read of line 506, only the
current class's refinement stops (`break`): the run continues with the
remaining classes and still writes results at the end, as the concrete run
over `T5` shows. -/
theorem missing_results_file_behaviour :
    (∀ (env : Env) (alg : Bool), run_knee_discovery env alg none none = none) ∧
    ((run_knee_discovery envC5 true none (some T5)).isSome = true ∧
     countFlag "B" (finalTable (run_knee_discovery envC5 true none (some T5))) = 1) := by
  refine ⟨fun env alg => rfl, ?_, ?_⟩
  · rw [run_envC5_eval]
    rfl
  · rw [run_envC5_eval]
    norm_num [finalTable, countFlag, F5, string_ab]
